import Mathlib

/-!
Verification of the document-and-secondary-index layer of the
gnuc-server-petstore repository (src/database.c) against its
natural-language specification.

The embedding models:
* cJSON values (the subset used by database.c: numbers, strings, arrays,
  objects) together with the accessors the C code uses (`valueint`,
  `valuestring`, `cJSON_GetObjectItem`, ...);
* the document codec (`cJSON_PrintUnformatted` / `cJSON_Parse`), an
  external collaborator, as a compact JSON printer and parser;
* the hiredis pipelined connection as an explicit state: a key-value
  store, a queue of pending (not yet drained) replies, and a log of every
  issued command.  `redisAppendCommand` executes the command against the
  store and queues its reply; `redisGetReply` pops the oldest queued
  reply.  This matches pipelined Redis semantics for a single client:
  commands are processed server-side in issue order and their replies are
  read back in the same order.

Every `db_*` function from src/database.c is translated clause by clause,
preserving its control flow, the exact key strings it builds with
`sprintf`/format specifiers, and the order in which it issues commands
and drains replies.  A NULL `char*` formatted with `%s` is rendered as
the string "(null)" (the glibc behaviour the binary exhibits), modelled
by `cstr` on `Option String`.
-/

namespace PetStore

/-- Model of a cJSON value: the subset of node kinds database.c touches. -/
inductive CJson where
  | num (n : Int)
  | str (s : String)
  | arr (items : List CJson)
  | obj (fields : List (String × CJson))
deriving Repr

/-- First field of an object with the given name (cJSON_GetObjectItem on
the field list of an object). -/
def lookupField : List (String × CJson) → String → Option CJson
  | [], _ => none
  | (k, v) :: rest, key => if k = key then some v else lookupField rest key

/-- Model of cJSON_GetObjectItem: field lookup on an object node, `none`
for any other node kind (cJSON returns NULL there). -/
def cJSON_GetObjectItem : CJson → String → Option CJson
  | CJson.obj fields, key => lookupField fields key
  | _, _ => none

/-- Model of the `valueint` field of a cJSON node: the number for a
numeric node, 0 for every other kind (cJSON leaves it zeroed). -/
def valueint : CJson → Int
  | CJson.num n => n
  | _ => 0

/-- Model of the `valuestring` field of a cJSON node: the string for a
string node, NULL (`none`) for every other kind — in particular for a
numeric node. -/
def valuestring : CJson → Option String
  | CJson.str s => some s
  | _ => none

/-- Model of cJSON_GetStringValue: same as reading `valuestring`. -/
def cJSON_GetStringValue (v : CJson) : Option String :=
  valuestring v

/-- Model of cJSON_IsArray. -/
def cJSON_IsArray : CJson → Bool
  | CJson.arr _ => true
  | _ => false

/-- Rendering of a possibly-NULL C string through a `%s` format
specifier: glibc prints NULL as "(null)". -/
def cstr : Option String → String
  | some s => s
  | none => "(null)"

/-! ### The document codec (cJSON print / parse, external collaborator) -/

/-- Comma-separated rendering of a list of already-rendered pieces. -/
def joinComma : List String → String
  | [] => ""
  | [s] => s
  | s :: rest => s ++ "," ++ joinComma rest

mutual

/-- Model of cJSON_PrintUnformatted: compact JSON, no whitespace.
String escaping is not modelled (no document in this development contains
a quote or backslash). -/
def cJSON_PrintUnformatted : CJson → String
  | CJson.num n => toString n
  | CJson.str s => "\"" ++ s ++ "\""
  | CJson.arr items => "[" ++ joinComma (printItems items) ++ "]"
  | CJson.obj fields => "\x7b" ++ joinComma (printFields fields) ++ "\x7d"

/-- Render each element of a JSON array. -/
def printItems : List CJson → List String
  | [] => []
  | v :: rest => cJSON_PrintUnformatted v :: printItems rest

/-- Render each member of a JSON object. -/
def printFields : List (String × CJson) → List String
  | [] => []
  | (k, v) :: rest => ("\"" ++ k ++ "\":" ++ cJSON_PrintUnformatted v) :: printFields rest

end

/-- Split the longest leading run of decimal digits off a character list. -/
def takeDigits : List Char → List Char × List Char
  | [] => ([], [])
  | ch :: rest =>
    if ch.isDigit then
      let (ds, r) := takeDigits rest
      (ch :: ds, r)
    else ([], ch :: rest)

/-- Decimal digits to a natural number, most significant first. -/
def digitsToNat (acc : Nat) : List Char → Nat
  | [] => acc
  | ch :: rest => digitsToNat (acc * 10 + (ch.toNat - '0'.toNat)) rest

/-- Consume characters up to (and including) the closing quote of a JSON
string body; `none` if the input ends first. -/
def takeUntilQuote : List Char → Option (List Char × List Char)
  | [] => none
  | ch :: rest =>
    if ch = '"' then some ([], rest)
    else
      match takeUntilQuote rest with
      | some (s, r) => some (ch :: s, r)
      | none => none

mutual

/-- Fuel-driven recursive-descent parser for the compact JSON emitted by
`cJSON_PrintUnformatted`.  Returns the parsed value and the unconsumed
rest of the input. -/
def parseVal : Nat → List Char → Option (CJson × List Char)
  | 0, _ => none
  | _ + 1, [] => none
  | fuel + 1, ch :: rest =>
    if ch = '"' then
      match takeUntilQuote rest with
      | some (s, r) => some (CJson.str s.asString, r)
      | none => none
    else if ch = '[' then parseItems fuel rest
    else if ch = '\x7b' then parseMembers fuel rest
    else if ch = '-' then
      match takeDigits rest with
      | ([], _) => none
      | (ds, r) => some (CJson.num (-(digitsToNat 0 ds : Int)), r)
    else if ch.isDigit then
      match takeDigits (ch :: rest) with
      | (ds, r) => some (CJson.num (digitsToNat 0 ds), r)
    else none

/-- Parse the items of a JSON array after the opening bracket. -/
def parseItems : Nat → List Char → Option (CJson × List Char)
  | 0, _ => none
  | fuel + 1, cs =>
    match cs with
    | ']' :: r => some (CJson.arr [], r)
    | _ =>
      match parseVal fuel cs with
      | some (v, ',' :: r2) =>
        match parseItems fuel r2 with
        | some (CJson.arr vs, r3) => some (CJson.arr (v :: vs), r3)
        | _ => none
      | some (v, ']' :: r2) => some (CJson.arr [v], r2)
      | _ => none

/-- Parse the members of a JSON object after the opening brace. -/
def parseMembers : Nat → List Char → Option (CJson × List Char)
  | 0, _ => none
  | fuel + 1, cs =>
    match cs with
    | '\x7d' :: r => some (CJson.obj [], r)
    | '"' :: r =>
      match takeUntilQuote r with
      | some (k, ':' :: r2) =>
        match parseVal fuel r2 with
        | some (v, ',' :: r3) =>
          match parseMembers fuel r3 with
          | some (CJson.obj kvs, r4) => some (CJson.obj ((k.asString, v) :: kvs), r4)
          | _ => none
        | some (v, '\x7d' :: r3) => some (CJson.obj [(k.asString, v)], r3)
        | _ => none
      | _ => none
    | _ => none

end

/-- Model of cJSON_Parse: parse a leading JSON value (cJSON tolerates
trailing bytes); `none` on malformed input. -/
def cJSON_Parse (s : String) : Option CJson :=
  match parseVal (s.length + 1) s.data with
  | some (v, _) => some v
  | none => none

/-! ### The Redis connection model -/

/-- A stored Redis value: a plain string (primary document slot) or a set
of members (membership / index sets).  Member order records insertion
order; Redis sets are unordered, so this is one deterministic
representative. -/
inductive RVal where
  | str (s : String)
  | set (members : List String)
deriving Repr, DecidableEq

/-- The Redis commands database.c issues. -/
inductive Cmd where
  | get (key : String)
  | setk (key val : String)
  | sadd (key member : String)
  | srem (key member : String)
  | smembers (key : String)
  | del (key : String)
deriving Repr, DecidableEq

/-- A Redis reply. -/
inductive Reply where
  | str (s : String)
  | nil
  | int (n : Int)
  | arr (elems : List String)
  | status (s : String)
  | err (msg : String)
deriving Repr, DecidableEq

/-- Association-list lookup in the key-value store. -/
def storeLookup : List (String × RVal) → String → Option RVal
  | [], _ => none
  | (k, v) :: rest, key => if k = key then some v else storeLookup rest key

/-- Replace the binding of `key` (or append a fresh one). -/
def storeUpdate : List (String × RVal) → String → RVal → List (String × RVal)
  | [], key, v => [(key, v)]
  | (k, w) :: rest, key, v =>
    if k = key then (k, v) :: rest else (k, w) :: storeUpdate rest key v

/-- Remove the binding of `key`. -/
def storeRemove : List (String × RVal) → String → List (String × RVal)
  | [], _ => []
  | (k, w) :: rest, key =>
    if k = key then rest else (k, w) :: storeRemove rest key

/-- SADD member semantics on the member list. -/
def setAdd (l : List String) (m : String) : List String :=
  if m ∈ l then l else l ++ [m]

/-- SREM member semantics on the member list. -/
def setRemove (l : List String) (m : String) : List String :=
  l.filter (fun x => x ≠ m)

/-- Execute one command against the store, producing its reply and the
new store (per the command table in spec §6). -/
def execCmd (store : List (String × RVal)) : Cmd → Reply × List (String × RVal)
  | Cmd.get k =>
    match storeLookup store k with
    | some (RVal.str s) => (Reply.str s, store)
    | some (RVal.set _) => (Reply.err "WRONGTYPE", store)
    | none => (Reply.nil, store)
  | Cmd.setk k v => (Reply.status "OK", storeUpdate store k (RVal.str v))
  | Cmd.sadd k m =>
    match storeLookup store k with
    | some (RVal.set l) =>
      (Reply.int (if m ∈ l then 0 else 1), storeUpdate store k (RVal.set (setAdd l m)))
    | some (RVal.str _) => (Reply.err "WRONGTYPE", store)
    | none => (Reply.int 1, storeUpdate store k (RVal.set [m]))
  | Cmd.srem k m =>
    match storeLookup store k with
    | some (RVal.set l) =>
      (Reply.int (if m ∈ l then 1 else 0), storeUpdate store k (RVal.set (setRemove l m)))
    | some (RVal.str _) => (Reply.err "WRONGTYPE", store)
    | none => (Reply.int 0, store)
  | Cmd.smembers k =>
    match storeLookup store k with
    | some (RVal.set l) => (Reply.arr l, store)
    | some (RVal.str _) => (Reply.err "WRONGTYPE", store)
    | none => (Reply.arr [], store)
  | Cmd.del k =>
    match storeLookup store k with
    | some _ => (Reply.int 1, storeRemove store k)
    | none => (Reply.int 0, store)

/-- State of the single pipelined Redis connection: the store, the queue
of replies issued but not yet drained (oldest first), and the log of all
issued commands (oldest first). -/
structure RedisState where
  store : List (String × RVal)
  pending : List Reply
  log : List Cmd
deriving Repr, DecidableEq

/-- Model of redisAppendCommand: the command is processed in issue order
and its reply queued behind all earlier undrained replies. -/
def redisAppendCommand (st : RedisState) (c : Cmd) : RedisState :=
  { store := (execCmd st.store c).2,
    pending := st.pending ++ [(execCmd st.store c).1],
    log := st.log ++ [c] }

/-- Model of redisGetReply: pop the oldest pending reply; `none` models a
failed read (REDIS_ERR / no reply available for this drain). -/
def redisGetReply (st : RedisState) : Option Reply × RedisState :=
  match st.pending with
  | [] => (none, st)
  | r :: rest => (some r, { st with pending := rest })

/-- Model of processRedisReplies (src/database.c:122): drain `n` replies
in issue order; a failed read aborts with failure.  Note the C loop only
checks the result code of redisGetReply — a successfully retrieved reply
counts as success even if it is an error reply. -/
def processRedisReplies : Nat → RedisState → Bool × RedisState
  | 0, st => (true, st)
  | n + 1, st =>
    match redisGetReply st with
    | (some _, st') => processRedisReplies n st'
    | (none, st') => (false, st')

/-! ### The database layer (src/database.c), translated clause by clause -/

/-- Loop body of store_tags (src/database.c:391): one SADD per tag that
has a string `name`; a tag whose `name` field is absent aborts with
failure; a tag whose `name` is present but not a string is skipped
(cJSON_GetStringValue returns NULL there). -/
def store_tags_loop (c : String) (id : Int) :
    List CJson → Nat → RedisState → Bool × Nat × RedisState
  | [], opn, st => (true, opn, st)
  | tag :: rest, opn, st =>
    match cJSON_GetObjectItem tag "name" with
    | none => (false, opn, st)
    | some name_obj =>
      match cJSON_GetStringValue name_obj with
      | some name =>
        store_tags_loop c id rest (opn + 1)
          (redisAppendCommand st (Cmd.sadd (c ++ ":tags:" ++ name) (toString id)))
      | none => store_tags_loop c id rest opn st

/-- Model of store_tags (src/database.c:391): iterate the `tags` array if
present; a missing or non-array `tags` object is a no-op success. -/
def store_tags (c : String) (tags_obj : Option CJson) (id : Int) (opn : Nat)
    (st : RedisState) : Bool × Nat × RedisState :=
  match tags_obj with
  | some (CJson.arr items) => store_tags_loop c id items opn st
  | _ => (true, opn, st)

/-- Model of store_document (src/database.c:650): SET of the serialized
document under key `collection:id`. -/
def store_document (c : String) (doc : CJson) (id : Int) (st : RedisState) :
    RedisState :=
  redisAppendCommand st (Cmd.setk (c ++ ":" ++ toString id) (cJSON_PrintUnformatted doc))

/-- Model of db_pet_insert (src/database.c:145): requires `id` and
`status`; issues SADD on `collection:status:<status>`, one SADD per tag
on `collection:tags:<name>`, SADD on the membership key
`collection:collection`, SET of the primary slot; then drains all issued
replies. -/
def db_pet_insert (c : String) (doc : CJson) (st : RedisState) :
    Bool × RedisState :=
  match cJSON_GetObjectItem doc "id" with
  | none => (false, st)
  | some id_obj =>
    match cJSON_GetObjectItem doc "status" with
    | none => (false, st)
    | some status_obj =>
      let id := valueint id_obj
      let st1 := redisAppendCommand st
        (Cmd.sadd (c ++ ":status:" ++ cstr (valuestring status_obj)) (toString id))
      match store_tags c (cJSON_GetObjectItem doc "tags") id 1 st1 with
      | (false, _, st2) => (false, st2)
      | (true, opn, st2) =>
        let st3 := redisAppendCommand st2
          (Cmd.sadd (c ++ ":" ++ c) (toString (valueint id_obj)))
        let st4 := store_document c doc id st3
        processRedisReplies (opn + 2) st4

/-- Model of db_user_insert (src/database.c:223): checks `id`, then
issues SET of the primary slot and SADD on the membership key
`collection:collection` before checking `username`; a missing `username`
aborts after those two commands were issued, without draining their
replies.  With `username` present it also issues SADD on
`collection:username:<username>` and drains the three replies. -/
def db_user_insert (c : String) (doc : CJson) (st : RedisState) :
    Bool × RedisState :=
  match cJSON_GetObjectItem doc "id" with
  | none => (false, st)
  | some id_obj =>
    let st1 := redisAppendCommand st
      (Cmd.setk (c ++ ":" ++ toString (valueint id_obj)) (cJSON_PrintUnformatted doc))
    let st2 := redisAppendCommand st1
      (Cmd.sadd (c ++ ":" ++ c) (toString (valueint id_obj)))
    match cJSON_GetObjectItem doc "username" with
    | none => (false, st2)
    | some username_obj =>
      let st3 := redisAppendCommand st2
        (Cmd.sadd (c ++ ":username:" ++ cstr (valuestring username_obj))
          (toString (valueint id_obj)))
      processRedisReplies 3 st3

/-- Model of db_find_one (src/database.c:457): GET on key
`collection:id` (the id is a C string and may be NULL, rendered
"(null)"); a non-string reply or a parse failure yields NULL. -/
def db_find_one (c : String) (id : Option String) (st : RedisState) :
    Option CJson × RedisState :=
  match redisGetReply (redisAppendCommand st (Cmd.get (c ++ ":" ++ cstr id))) with
  | (some (Reply.str s), st2) => (cJSON_Parse s, st2)
  | (some _, st2) => (none, st2)
  | (none, st2) => (none, st2)

/-- Model of remove_document_from_field (src/database.c:618): SREM of
the id from key `field_id:<valuestring of field_name>` when the field
object is non-NULL; a NULL field object is a no-op success. -/
def remove_document_from_field (field_id : String) (field_name : Option CJson)
    (id : Int) (opn : Nat) (st : RedisState) : Bool × Nat × RedisState :=
  match field_name with
  | some f =>
    (true, opn + 1,
      redisAppendCommand st
        (Cmd.srem (field_id ++ ":" ++ cstr (valuestring f)) (toString id)))
  | none => (true, opn, st)

/-- Loop body of remove_document_from_tags (src/database.c:421): one SREM
per tag with a string name, on key `collection:<name>` — note: without
the "tags" segment the insert path uses. -/
def remove_tags_loop (c : String) (id : Int) :
    List CJson → Nat → RedisState → Bool × Nat × RedisState
  | [], opn, st => (true, opn, st)
  | tag :: rest, opn, st =>
    match cJSON_GetObjectItem tag "name" with
    | none => (false, opn, st)
    | some name_obj =>
      match cJSON_GetStringValue name_obj with
      | some name =>
        remove_tags_loop c id rest (opn + 1)
          (redisAppendCommand st (Cmd.srem (c ++ ":" ++ name) (toString id)))
      | none => remove_tags_loop c id rest opn st

/-- Model of remove_document_from_tags (src/database.c:421). -/
def remove_document_from_tags (c : String) (doc : CJson) (id : Int) (opn : Nat)
    (st : RedisState) : Bool × Nat × RedisState :=
  match cJSON_GetObjectItem doc "tags" with
  | some (CJson.arr items) => remove_tags_loop c id items opn st
  | _ => (true, opn, st)

/-- Model of remove_document_from_collection (src/database.c:635): SREM
of the id from the bare collection-name key. -/
def remove_document_from_collection (c : String) (id : Int) (opn : Nat)
    (st : RedisState) : Bool × Nat × RedisState :=
  (true, opn + 1, redisAppendCommand st (Cmd.srem c (toString id)))

/-- Model of db_pet_delete (src/database.c:351): fetch the stored
document, then SREM the id from `collection:<status>` (note: built from
the bare collection name, not `collection:status:<status>`), from
`collection:<tagname>` per tag, and from the bare collection-name key;
then drain the issued replies.  No DEL of the primary slot is issued. -/
def db_pet_delete (c : String) (id : Option String) (st : RedisState) :
    Bool × RedisState :=
  match db_find_one c id st with
  | (none, st1) => (false, st1)
  | (some doc, st1) =>
    match cJSON_GetObjectItem doc "id" with
    | none => (false, st1)
    | some id_obj =>
      let doc_id := valueint id_obj
      match remove_document_from_field c (cJSON_GetObjectItem doc "status")
          doc_id 0 st1 with
      | (false, _, st2) => (false, st2)
      | (true, opn1, st2) =>
        match remove_document_from_tags c doc doc_id opn1 st2 with
        | (false, _, st3) => (false, st3)
        | (true, opn2, st3) =>
          match remove_document_from_collection c doc_id opn2 st3 with
          | (false, _, st4) => (false, st4)
          | (true, opn3, st4) => processRedisReplies opn3 st4

/-- Model of db_user_delete (src/database.c:307): fetch the stored
document, SREM the id from `collection:username:<username>` and from the
bare collection-name key, then drain. -/
def db_user_delete (c : String) (id : Option String) (st : RedisState) :
    Bool × RedisState :=
  match db_find_one c id st with
  | (none, st1) => (false, st1)
  | (some doc, st1) =>
    match cJSON_GetObjectItem doc "id" with
    | none => (false, st1)
    | some id_obj =>
      let doc_id := valueint id_obj
      match remove_document_from_field (c ++ ":" ++ "username")
          (cJSON_GetObjectItem doc "username") doc_id 0 st1 with
      | (false, _, st2) => (false, st2)
      | (true, opn1, st2) =>
        match remove_document_from_collection c doc_id opn1 st2 with
        | (false, _, st3) => (false, st3)
        | (true, opn2, st3) => processRedisReplies opn2 st3

/-- Model of db_pet_update (src/database.c:197): read the id of the
update document through its `valuestring` (NULL for a numeric id), then
delete-then-reinsert. -/
def db_pet_update (c : String) (update : CJson) (st : RedisState) :
    Bool × RedisState :=
  match cJSON_GetObjectItem update "id" with
  | none => (false, st)
  | some id_obj =>
    match db_pet_delete c (valuestring id_obj) st with
    | (false, st1) => (false, st1)
    | (true, st1) => db_pet_insert c update st1

/-- Model of db_user_update (src/database.c:281): same two-phase shape
as db_pet_update. -/
def db_user_update (c : String) (update : CJson) (st : RedisState) :
    Bool × RedisState :=
  match cJSON_GetObjectItem update "id" with
  | none => (false, st)
  | some id_obj =>
    match db_user_delete c (valuestring id_obj) st with
    | (false, st1) => (false, st1)
    | (true, st1) => db_user_insert c update st1

/-- Phase 1 of db_find (src/database.c:517): one SMEMBERS per query
value, on key `<field>:<valuestring of value>`. -/
def issue_smembers (field : String) : List CJson → RedisState → RedisState
  | [], st => st
  | v :: rest, st =>
    issue_smembers field rest
      (redisAppendCommand st
        (Cmd.smembers (field ++ ":" ++ cstr (valuestring v))))

/-- The member strings of a reply, as the C code reads them
(`reply->elements` is 0 for any non-array reply). -/
def replyElems : Reply → List String
  | Reply.arr l => l
  | _ => []

/-- Issue one GET per member id returned by an SMEMBERS reply
(src/database.c:533). -/
def issue_gets (c : String) : List String → RedisState → RedisState
  | [], st => st
  | id :: rest, st =>
    issue_gets c rest (redisAppendCommand st (Cmd.get (c ++ ":" ++ id)))

/-- Phase 2 of db_find (src/database.c:530): drain the SMEMBERS replies
in issue order; for each member id issue a GET of the primary slot,
counting the GETs issued; a failed read aborts the query. -/
def drain_smembers (c : String) : Nat → RedisState → Option Nat × RedisState
  | 0, st => (some 0, st)
  | n + 1, st =>
    match redisGetReply st with
    | (some r, st1) =>
      let ids := replyElems r
      match drain_smembers c n (issue_gets c ids st1) with
      | (some k, st2) => (some (ids.length + k), st2)
      | (none, st2) => (none, st2)
    | (none, st1) => (none, st1)

/-- Phase 3 of db_find (src/database.c:550): drain the GET replies in
issue order, keeping each string reply that parses as a document;
non-string replies and parse failures are skipped; a failed read aborts
the query. -/
def drain_gets : Nat → RedisState → Option (List CJson) × RedisState
  | 0, st => (some [], st)
  | n + 1, st =>
    match redisGetReply st with
    | (some (Reply.str s), st1) =>
      match drain_gets n st1 with
      | (some docs, st2) => (some ((cJSON_Parse s).toList ++ docs), st2)
      | (none, st2) => (none, st2)
    | (some _, st1) => drain_gets n st1
    | (none, st1) => (none, st1)

/-- Model of db_find (src/database.c:490): validation of `operator`,
`field`, `value` (in that order), rejection of a non-array `value`, then
the three phases. -/
def db_find (c : String) (query : CJson) (st : RedisState) :
    Option CJson × RedisState :=
  match cJSON_GetObjectItem query "operator" with
  | none => (none, st)
  | some _ =>
    match cJSON_GetObjectItem query "field" with
    | none => (none, st)
    | some field_obj =>
      match cJSON_GetObjectItem query "value" with
      | none => (none, st)
      | some value_obj =>
        match value_obj with
        | CJson.arr values =>
          let st1 := issue_smembers (cstr (valuestring field_obj)) values st
          match drain_smembers c values.length st1 with
          | (some getn, st2) =>
            match drain_gets getn st2 with
            | (some docs, st3) => (some (CJson.arr docs), st3)
            | (none, st3) => (none, st3)
          | (none, st2) => (none, st2)
        | _ => (none, st)

/-- Model of db_find_all (src/database.c:578): issues SMEMBERS on
`collection:collection`, but its drain loop is bounded by a counter that
is initialized to 0 and never incremented, so the loop body never runs:
no reply is drained, no document is fetched, and the empty array is
returned unconditionally. -/
def db_find_all (c : String) (st : RedisState) : Option CJson × RedisState :=
  let st1 := redisAppendCommand st (Cmd.smembers (c ++ ":" ++ c))
  (some (CJson.arr []), st1)

/-! ### Spec-side query semantics (for the refinement claim) -/

/-- The members of the set stored at `k` (empty for an absent key or a
key of the wrong kind, matching what the query loop observes). -/
def smembersOf (store : List (String × RVal)) (k : String) : List String :=
  match storeLookup store k with
  | some (RVal.set l) => l
  | _ => []

/-- The document obtained by a `findOne` of id `id` against `store`,
`none` when the primary slot is missing, of the wrong kind, or does not
parse. -/
def docOf (store : List (String × RVal)) (c : String) (id : String) :
    Option CJson :=
  match storeLookup store (c ++ ":" ++ id) with
  | some (RVal.str s) => cJSON_Parse s
  | _ => none

/-- Spec-side semantics of `find` for an array value, following the
spec's words (§4.2, §8): for each value independently, in value order,
take the member ids of the index set `field:value` and keep the
documents whose primary slot exists and parses (skipping misses); the
result is the concatenation — the union as logical OR, with no
de-duplication — of the per-value matches. -/
def find_spec (c f : String) (vs : List String)
    (store : List (String × RVal)) : List CJson :=
  (vs.map (fun v => (smembersOf store (f ++ ":" ++ v)).filterMap
    (docOf store c))).flatten

/-- The query object `{operator, field, value:[...strings]}` used by the
query-engine theorems. -/
def mkQuery (op : CJson) (f : String) (vs : List String) : CJson :=
  CJson.obj [("operator", op), ("field", CJson.str f),
             ("value", CJson.arr (vs.map CJson.str))]

/-- Recognizer for the DEL command. -/
def isDelCmd : Cmd → Bool
  | Cmd.del _ => true
  | _ => false

/-- The reply an SMEMBERS on key `k` produces against `store`. -/
def smReply (store : List (String × RVal)) (k : String) : Reply :=
  (execCmd store (Cmd.smembers k)).1

/-- The reply a GET on key `k` produces against `store`. -/
def getReplyOf (store : List (String × RVal)) (k : String) : Reply :=
  (execCmd store (Cmd.get k)).1

/-! ### Concrete fixtures -/

/-- The pet document of the spec's concrete scenario (§8). -/
def pet1 : CJson :=
  CJson.obj [("id", CJson.num 1), ("status", CJson.str "available"),
    ("tags", CJson.arr [CJson.obj [("name", CJson.str "dog")]])]

/-- A replacement pet document with the same id and a different status. -/
def pet1_sold : CJson :=
  CJson.obj [("id", CJson.num 1), ("status", CJson.str "sold")]

/-- A pet document missing the required `status` field. -/
def pet_nostatus : CJson := CJson.obj [("id", CJson.num 1)]

/-- A user document missing the required `username` field. -/
def user_nousername : CJson := CJson.obj [("id", CJson.num 7)]

/-- The empty connection state: empty store, no pending replies. -/
def st0 : RedisState := ⟨[], [], []⟩

/-- The state after inserting `pet1` into "pets". -/
def stIns : RedisState := (db_pet_insert "pets" pet1 st0).snd

/-- The state after then deleting id "1" from "pets". -/
def stDel : RedisState := (db_pet_delete "pets" (some "1") stIns).snd

/-- The status query of the spec's concrete scenario. -/
def qAvail : CJson :=
  CJson.obj [("operator", CJson.str "eq"), ("field", CJson.str "pets:status"),
    ("value", CJson.arr [CJson.str "available"])]

/-- The tag query of the spec's concrete scenario. -/
def qDog : CJson :=
  CJson.obj [("operator", CJson.str "eq"), ("field", CJson.str "pets:tags"),
    ("value", CJson.arr [CJson.str "dog"])]

/-- A status query whose value is a single string, not an array. -/
def qScalar : CJson :=
  CJson.obj [("operator", CJson.str "eq"), ("field", CJson.str "pets:status"),
    ("value", CJson.str "available")]

/-- A store in which document id "1" is indexed under two different
status values, for the duplicate-result witness. -/
def stDup : RedisState :=
  ⟨[("pets:status:available", RVal.set ["1"]),
    ("pets:status:cute", RVal.set ["1"]),
    ("pets:1", RVal.str (cJSON_PrintUnformatted pet1))], [], []⟩

/-! ### Basic lemmas about the connection model -/

theorem log_append (st : RedisState) (c : Cmd) :
    (redisAppendCommand st c).log = st.log ++ [c] := rfl

theorem pending_append (st : RedisState) (c : Cmd) :
    (redisAppendCommand st c).pending = st.pending ++ [(execCmd st.store c).1] := rfl

theorem store_append (st : RedisState) (c : Cmd) :
    (redisAppendCommand st c).store = (execCmd st.store c).2 := rfl

theorem redisGetReply_log (st : RedisState) :
    (redisGetReply st).2.log = st.log := by
  cases h : st.pending <;> simp [redisGetReply, h]

theorem redisGetReply_store (st : RedisState) :
    (redisGetReply st).2.store = st.store := by
  cases h : st.pending <;> simp [redisGetReply, h]

theorem processRedisReplies_log (n : Nat) (st : RedisState) :
    (processRedisReplies n st).2.log = st.log := by
  induction n generalizing st with
  | zero => rfl
  | succ n ih =>
    cases h : st.pending with
    | nil => simp [processRedisReplies, redisGetReply, h]
    | cons r rest => simp [processRedisReplies, redisGetReply, h, ih]

theorem processRedisReplies_store (n : Nat) (st : RedisState) :
    (processRedisReplies n st).2.store = st.store := by
  induction n generalizing st with
  | zero => rfl
  | succ n ih =>
    cases h : st.pending with
    | nil => simp [processRedisReplies, redisGetReply, h]
    | cons r rest => simp [processRedisReplies, redisGetReply, h, ih]

theorem processRedisReplies_pending (n : Nat) (st : RedisState) :
    (processRedisReplies n st).2.pending = st.pending.drop n := by
  induction n generalizing st with
  | zero => rfl
  | succ n ih =>
    cases h : st.pending with
    | nil => simp [processRedisReplies, redisGetReply, h]
    | cons r rest => simp [processRedisReplies, redisGetReply, h, ih]

theorem processRedisReplies_true_iff (n : Nat) (st : RedisState) :
    (processRedisReplies n st).1 = true ↔ n ≤ st.pending.length := by
  induction n generalizing st with
  | zero => simp [processRedisReplies]
  | succ n ih =>
    cases h : st.pending with
    | nil => simp [processRedisReplies, redisGetReply, h]
    | cons r rest => simp [processRedisReplies, redisGetReply, h, ih, Nat.succ_le_succ_iff]

/-! ### Claim theorems -/

/-- C1: insert indexes the pet under `pets:status:available` and
`pets:tags:dog`, but the delete path removes the id from the differently
built keys `pets:available` and `pets:dog`, so after a *successful*
delete the id is still a member of both field-index sets it was added to
on insert, and both index queries still return the document instead of
the empty result the spec demands. -/
theorem pet_delete_leaves_insert_index_entries :
    (db_pet_insert "pets" pet1 st0).1 = true ∧
    (db_pet_delete "pets" (some "1") stIns).1 = true ∧
    storeLookup stDel.store "pets:status:available" = some (RVal.set ["1"]) ∧
    storeLookup stDel.store "pets:tags:dog" = some (RVal.set ["1"]) ∧
    (db_find "pets" qAvail stDel).1 = some (CJson.arr [pet1]) ∧
    (db_find "pets" qDog stDel).1 = some (CJson.arr [pet1]) :=
  ⟨rfl, rfl, rfl, rfl, rfl, rfl⟩

/-- C2: db_find_all issues the SMEMBERS on the membership set but its
drain loop bound is the counter `op_getid_num`, initialized to 0 and
never incremented, so for every collection and state it performs no
`findOne`, returns the empty array unconditionally, and leaves the
SMEMBERS reply undrained; in particular it returns the empty array even
on the state where `pet1` was just successfully inserted and the
membership set is non-empty. -/
theorem db_find_all_always_returns_empty :
    (∀ c st, db_find_all c st =
      (some (CJson.arr []), redisAppendCommand st (Cmd.smembers (c ++ ":" ++ c)))) ∧
    (∀ c st, (db_find_all c st).2.pending.length = st.pending.length + 1) ∧
    (db_pet_insert "pets" pet1 st0).1 = true ∧
    smembersOf stIns.store "pets:pets" = ["1"] ∧
    (db_find_all "pets" stIns).1 = some (CJson.arr []) := by
  refine ⟨fun c st => rfl, fun c st => ?_, rfl, rfl, rfl⟩
  simp [db_find_all, pending_append]

/-- C5: after `pet1` (id 1, status "available") was successfully
inserted, an update to status "sold" fails: db_pet_update reads the
numeric id through `valuestring`, which is NULL, so its delete phase
looks up key "pets:(null)", finds nothing, and the update returns
failure having issued only that GET; the status indexes are untouched —
the id does not leave the "available" index and never enters the "sold"
index. -/
theorem pet_update_with_numeric_id_fails :
    (db_pet_insert "pets" pet1 st0).1 = true ∧
    (db_pet_update "pets" pet1_sold stIns).1 = false ∧
    (db_pet_update "pets" pet1_sold stIns).2.log.drop stIns.log.length =
      [Cmd.get "pets:(null)"] ∧
    storeLookup (db_pet_update "pets" pet1_sold stIns).2.store
      "pets:status:available" = some (RVal.set ["1"]) ∧
    storeLookup (db_pet_update "pets" pet1_sold stIns).2.store
      "pets:status:sold" = none :=
  ⟨rfl, rfl, rfl, rfl, rfl⟩

/-- C6 counterexample: a batch of one command whose reply is an error
reply is reported as success by processRedisReplies — the loop checks
only the result code of redisGetReply, never the reply type — refuting
the claim that an error reply makes insertion report failure. -/
theorem process_replies_accepts_error_reply :
    (processRedisReplies 1 ⟨[], [Reply.err "ERR unknown command"], []⟩).1 = true :=
  rfl

/-- C6 amended: processRedisReplies drains replies in issue order and
succeeds exactly when enough replies can be retrieved — `n` at most the
number pending; retrieved replies are accepted regardless of being error
replies, and the store and command log are untouched. -/
theorem process_replies_success_iff_enough_replies (n : Nat) (st : RedisState) :
    ((processRedisReplies n st).1 = true ↔ n ≤ st.pending.length) ∧
    (processRedisReplies n st).2.pending = st.pending.drop n ∧
    (processRedisReplies n st).2.store = st.store ∧
    (processRedisReplies n st).2.log = st.log :=
  ⟨processRedisReplies_true_iff n st, processRedisReplies_pending n st,
    processRedisReplies_store n st, processRedisReplies_log n st⟩

/-- C7 counterexample: a query with `operator`, `field` and a single
non-array string `value` is rejected by db_find (the code demands an
array), refuting the claim that a scalar string value is accepted and
looked up. -/
theorem db_find_rejects_scalar_string_value :
    (db_find "pets" qScalar stIns) = (none, stIns) :=
  rfl

/-! ### Command-log characterizations of the mutation paths -/

theorem db_find_one_log (c : String) (id : Option String) (st : RedisState) :
    (db_find_one c id st).2.log = st.log ++ [Cmd.get (c ++ ":" ++ cstr id)] := by
  have hl := redisGetReply_log (redisAppendCommand st (Cmd.get (c ++ ":" ++ cstr id)))
  rcases h : redisGetReply (redisAppendCommand st (Cmd.get (c ++ ":" ++ cstr id)))
    with ⟨o, st2⟩
  rw [h] at hl
  rw [log_append] at hl
  cases o with
  | none => simp only [db_find_one, h]; exact hl
  | some r => cases r <;> (simp only [db_find_one, h]; exact hl)

theorem remove_document_from_field_fst (fid : String) (fobj : Option CJson)
    (id : Int) (opn : Nat) (st : RedisState) :
    (remove_document_from_field fid fobj id opn st).1 = true := by
  cases fobj <;> rfl

theorem remove_document_from_field_log (fid : String) (fobj : Option CJson)
    (id : Int) (opn : Nat) (st : RedisState) :
    ∃ ds, (remove_document_from_field fid fobj id opn st).2.2.log = st.log ++ ds ∧
      ∀ cmd ∈ ds, ∃ k m, cmd = Cmd.srem k m := by
  cases fobj with
  | none => exact ⟨[], by simp [remove_document_from_field], by simp⟩
  | some f =>
    refine ⟨[Cmd.srem (fid ++ ":" ++ cstr (valuestring f)) (toString id)], ?_, ?_⟩
    · simp [remove_document_from_field, log_append]
    · simp

theorem remove_tags_loop_log (c : String) (id : Int) (items : List CJson)
    (opn : Nat) (st : RedisState) :
    ∃ ds, (remove_tags_loop c id items opn st).2.2.log = st.log ++ ds ∧
      ∀ cmd ∈ ds, ∃ k m, cmd = Cmd.srem k m := by
  induction items generalizing opn st with
  | nil => exact ⟨[], by simp [remove_tags_loop], by simp⟩
  | cons tag rest ih =>
    cases h1 : cJSON_GetObjectItem tag "name" with
    | none => exact ⟨[], by simp [remove_tags_loop, h1], by simp⟩
    | some name_obj =>
      cases h2 : cJSON_GetStringValue name_obj with
      | none =>
        obtain ⟨ds, hlog, hP⟩ := ih opn st
        refine ⟨ds, ?_, hP⟩
        simpa [remove_tags_loop, h1, h2] using hlog
      | some name =>
        obtain ⟨ds, hlog, hP⟩ := ih (opn + 1)
          (redisAppendCommand st (Cmd.srem (c ++ ":" ++ name) (toString id)))
        refine ⟨Cmd.srem (c ++ ":" ++ name) (toString id) :: ds, ?_, ?_⟩
        · rw [log_append] at hlog
          simpa [remove_tags_loop, h1, h2] using hlog
        · intro cmd hc
          rcases List.mem_cons.mp hc with h | h
          · exact ⟨_, _, h⟩
          · exact hP cmd h

theorem remove_document_from_tags_log (c : String) (doc : CJson) (id : Int)
    (opn : Nat) (st : RedisState) :
    ∃ ds, (remove_document_from_tags c doc id opn st).2.2.log = st.log ++ ds ∧
      ∀ cmd ∈ ds, ∃ k m, cmd = Cmd.srem k m := by
  unfold remove_document_from_tags
  cases h : cJSON_GetObjectItem doc "tags" with
  | none => exact ⟨[], by simp, by simp⟩
  | some v =>
    cases v with
    | arr items => exact remove_tags_loop_log c id items opn st
    | num n => exact ⟨[], by simp, by simp⟩
    | str s => exact ⟨[], by simp, by simp⟩
    | obj fs => exact ⟨[], by simp, by simp⟩

theorem db_pet_delete_log (c : String) (id : Option String) (st : RedisState) :
    ∃ ds, (db_pet_delete c id st).2.log =
      st.log ++ Cmd.get (c ++ ":" ++ cstr id) :: ds ∧
      ∀ cmd ∈ ds, (∃ k, cmd = Cmd.get k) ∨ ∃ k m, cmd = Cmd.srem k m := by
  have hf1 := db_find_one_log c id st
  rcases hf : db_find_one c id st with ⟨o, st1⟩
  rw [hf] at hf1
  replace hf1 : st1.log = st.log ++ [Cmd.get (c ++ ":" ++ cstr id)] := hf1
  cases o with
  | none =>
    refine ⟨[], ?_, by simp⟩
    simp only [db_pet_delete, hf]
    exact hf1
  | some doc =>
    cases h2 : cJSON_GetObjectItem doc "id" with
    | none =>
      refine ⟨[], ?_, by simp⟩
      simp only [db_pet_delete, hf, h2]
      exact hf1
    | some id_obj =>
      obtain ⟨ds1, hl1, hP1⟩ := remove_document_from_field_log c
        (cJSON_GetObjectItem doc "status") (valueint id_obj) 0 st1
      have hb1 := remove_document_from_field_fst c
        (cJSON_GetObjectItem doc "status") (valueint id_obj) 0 st1
      rcases hr1 : remove_document_from_field c (cJSON_GetObjectItem doc "status")
        (valueint id_obj) 0 st1 with ⟨b1, opn1, st2⟩
      rw [hr1] at hl1 hb1
      replace hl1 : st2.log = st1.log ++ ds1 := hl1
      replace hb1 : b1 = true := hb1
      subst hb1
      obtain ⟨ds2, hl2, hP2⟩ := remove_document_from_tags_log c doc
        (valueint id_obj) opn1 st2
      rcases hr2 : remove_document_from_tags c doc (valueint id_obj) opn1 st2
        with ⟨b2, opn2, st3⟩
      rw [hr2] at hl2
      replace hl2 : st3.log = st2.log ++ ds2 := hl2
      cases b2 with
      | false =>
        refine ⟨ds1 ++ ds2, ?_, ?_⟩
        · simp only [db_pet_delete, hf, h2, hr1, hr2]
          rw [hl2, hl1, hf1]
          simp
        · intro cmd h
          rcases List.mem_append.mp h with h | h
          · exact Or.inr (hP1 cmd h)
          · exact Or.inr (hP2 cmd h)
      | true =>
        refine ⟨ds1 ++ ds2 ++ [Cmd.srem c (toString (valueint id_obj))], ?_, ?_⟩
        · simp only [db_pet_delete, hf, h2, hr1, hr2, remove_document_from_collection]
          rw [processRedisReplies_log, log_append, hl2, hl1, hf1]
          simp
        · intro cmd h
          rcases List.mem_append.mp h with h | h
          · rcases List.mem_append.mp h with h | h
            · exact Or.inr (hP1 cmd h)
            · exact Or.inr (hP2 cmd h)
          · rcases List.mem_singleton.mp h with rfl
            exact Or.inr ⟨_, _, rfl⟩

theorem db_user_delete_log (c : String) (id : Option String) (st : RedisState) :
    ∃ ds, (db_user_delete c id st).2.log =
      st.log ++ Cmd.get (c ++ ":" ++ cstr id) :: ds ∧
      ∀ cmd ∈ ds, (∃ k, cmd = Cmd.get k) ∨ ∃ k m, cmd = Cmd.srem k m := by
  have hf1 := db_find_one_log c id st
  rcases hf : db_find_one c id st with ⟨o, st1⟩
  rw [hf] at hf1
  replace hf1 : st1.log = st.log ++ [Cmd.get (c ++ ":" ++ cstr id)] := hf1
  cases o with
  | none =>
    refine ⟨[], ?_, by simp⟩
    simp only [db_user_delete, hf]
    exact hf1
  | some doc =>
    cases h2 : cJSON_GetObjectItem doc "id" with
    | none =>
      refine ⟨[], ?_, by simp⟩
      simp only [db_user_delete, hf, h2]
      exact hf1
    | some id_obj =>
      obtain ⟨ds1, hl1, hP1⟩ := remove_document_from_field_log (c ++ ":" ++ "username")
        (cJSON_GetObjectItem doc "username") (valueint id_obj) 0 st1
      have hb1 := remove_document_from_field_fst (c ++ ":" ++ "username")
        (cJSON_GetObjectItem doc "username") (valueint id_obj) 0 st1
      rcases hr1 : remove_document_from_field (c ++ ":" ++ "username")
        (cJSON_GetObjectItem doc "username") (valueint id_obj) 0 st1 with ⟨b1, opn1, st2⟩
      rw [hr1] at hl1 hb1
      replace hl1 : st2.log = st1.log ++ ds1 := hl1
      replace hb1 : b1 = true := hb1
      subst hb1
      refine ⟨ds1 ++ [Cmd.srem c (toString (valueint id_obj))], ?_, ?_⟩
      · simp only [db_user_delete, hf, h2, hr1, remove_document_from_collection]
        rw [processRedisReplies_log, log_append, hl1, hf1]
        simp
      · intro cmd h
        rcases List.mem_append.mp h with h | h
        · exact Or.inr (hP1 cmd h)
        · rcases List.mem_singleton.mp h with rfl
          exact Or.inr ⟨_, _, rfl⟩

theorem store_tags_loop_log (c : String) (id : Int) (items : List CJson)
    (opn : Nat) (st : RedisState) :
    ∃ ds, (store_tags_loop c id items opn st).2.2.log = st.log ++ ds ∧
      ∀ cmd ∈ ds, ∃ name, cmd = Cmd.sadd (c ++ ":tags:" ++ name) (toString id) := by
  induction items generalizing opn st with
  | nil => exact ⟨[], by simp [store_tags_loop], by simp⟩
  | cons tag rest ih =>
    cases h1 : cJSON_GetObjectItem tag "name" with
    | none => exact ⟨[], by simp [store_tags_loop, h1], by simp⟩
    | some name_obj =>
      cases h2 : cJSON_GetStringValue name_obj with
      | none =>
        obtain ⟨ds, hlog, hP⟩ := ih opn st
        refine ⟨ds, ?_, hP⟩
        simpa [store_tags_loop, h1, h2] using hlog
      | some name =>
        obtain ⟨ds, hlog, hP⟩ := ih (opn + 1)
          (redisAppendCommand st (Cmd.sadd (c ++ ":tags:" ++ name) (toString id)))
        refine ⟨Cmd.sadd (c ++ ":tags:" ++ name) (toString id) :: ds, ?_, ?_⟩
        · rw [log_append] at hlog
          simpa [store_tags_loop, h1, h2] using hlog
        · intro cmd hc
          rcases List.mem_cons.mp hc with h | h
          · exact ⟨name, h⟩
          · exact hP cmd h

theorem store_tags_log (c : String) (tobj : Option CJson) (id : Int)
    (opn : Nat) (st : RedisState) :
    ∃ ds, (store_tags c tobj id opn st).2.2.log = st.log ++ ds ∧
      ∀ cmd ∈ ds, ∃ name, cmd = Cmd.sadd (c ++ ":tags:" ++ name) (toString id) := by
  unfold store_tags
  cases tobj with
  | none => exact ⟨[], by simp, by simp⟩
  | some v =>
    cases v with
    | arr items => exact store_tags_loop_log c id items opn st
    | num n => exact ⟨[], by simp, by simp⟩
    | str s => exact ⟨[], by simp, by simp⟩
    | obj fs => exact ⟨[], by simp, by simp⟩

/-- In the success case, db_pet_insert appends exactly: the status-index
SADD, one SADD per named tag, the membership SADD on
`collection:collection`, and the primary-slot SET — in that order. -/
theorem db_pet_insert_log_success (c : String) (doc : CJson) (st : RedisState)
    (id_obj status_obj : CJson)
    (hid : cJSON_GetObjectItem doc "id" = some id_obj)
    (hst : cJSON_GetObjectItem doc "status" = some status_obj)
    (hins : (db_pet_insert c doc st).1 = true) :
    ∃ ds1, (db_pet_insert c doc st).2.log = st.log ++
      (Cmd.sadd (c ++ ":status:" ++ cstr (valuestring status_obj))
          (toString (valueint id_obj)) :: ds1) ++
      [Cmd.sadd (c ++ ":" ++ c) (toString (valueint id_obj)),
       Cmd.setk (c ++ ":" ++ toString (valueint id_obj)) (cJSON_PrintUnformatted doc)] ∧
      ∀ cmd ∈ ds1, ∃ name, cmd = Cmd.sadd (c ++ ":tags:" ++ name)
        (toString (valueint id_obj)) := by
  obtain ⟨ds1, hlog, hP⟩ := store_tags_log c (cJSON_GetObjectItem doc "tags")
    (valueint id_obj) 1
    (redisAppendCommand st
      (Cmd.sadd (c ++ ":status:" ++ cstr (valuestring status_obj))
        (toString (valueint id_obj))))
  rcases hr : store_tags c (cJSON_GetObjectItem doc "tags") (valueint id_obj) 1
      (redisAppendCommand st
        (Cmd.sadd (c ++ ":status:" ++ cstr (valuestring status_obj))
          (toString (valueint id_obj)))) with ⟨b, opn, st2⟩
  rw [hr] at hlog
  replace hlog : st2.log = (redisAppendCommand st
      (Cmd.sadd (c ++ ":status:" ++ cstr (valuestring status_obj))
        (toString (valueint id_obj)))).log ++ ds1 := hlog
  cases b with
  | false =>
    exfalso
    simp only [db_pet_insert, hid, hst, hr] at hins
    exact Bool.noConfusion hins
  | true =>
    refine ⟨ds1, ?_, hP⟩
    simp only [db_pet_insert, hid, hst, hr, store_document]
    rw [processRedisReplies_log, log_append, log_append, hlog, log_append]
    simp

/-- C3: the batch issued by delete contains no DEL command at all — for
every collection, id and state, filtering the issued-command log of both
db_pet_delete and db_user_delete for DEL gives back exactly the DELs
that were already in the log beforehand; concretely, after the
successful delete of pet id 1, findOne still returns the full document,
since the primary slot `pets:1` was never destroyed. -/
theorem db_delete_never_issues_primary_slot_del :
    (∀ c id st, (db_pet_delete c id st).2.log.filter isDelCmd =
      st.log.filter isDelCmd) ∧
    (∀ c id st, (db_user_delete c id st).2.log.filter isDelCmd =
      st.log.filter isDelCmd) ∧
    (db_pet_delete "pets" (some "1") stIns).1 = true ∧
    (db_find_one "pets" (some "1") stDel).1 = some pet1 := by
  refine ⟨?_, ?_, rfl, rfl⟩
  · intro c id st
    obtain ⟨ds, hlog, hP⟩ := db_pet_delete_log c id st
    rw [hlog, List.filter_append]
    have hnil : (Cmd.get (c ++ ":" ++ cstr id) :: ds).filter isDelCmd = [] := by
      rw [List.filter_eq_nil_iff]
      intro cmd hc
      rcases List.mem_cons.mp hc with rfl | hc
      · simp [isDelCmd]
      · rcases hP cmd hc with ⟨k, rfl⟩ | ⟨k, m, rfl⟩ <;> simp [isDelCmd]
    rw [hnil, List.append_nil]
  · intro c id st
    obtain ⟨ds, hlog, hP⟩ := db_user_delete_log c id st
    rw [hlog, List.filter_append]
    have hnil : (Cmd.get (c ++ ":" ++ cstr id) :: ds).filter isDelCmd = [] := by
      rw [List.filter_eq_nil_iff]
      intro cmd hc
      rcases List.mem_cons.mp hc with rfl | hc
      · simp [isDelCmd]
      · rcases hP cmd hc with ⟨k, rfl⟩ | ⟨k, m, rfl⟩ <;> simp [isDelCmd]
    rw [hnil, List.append_nil]

/-- C4 counterexample: the membership set is not self-keyed under the
bare collection name, and delete does not remove the id from the key
insert added it to: after a successful insert of pet id 1 there is no
value at key "pets" while "pets:pets" holds the id, and after a
successful delete the id is still a member of "pets:pets". -/
theorem membership_set_not_self_keyed :
    (db_pet_insert "pets" pet1 st0).1 = true ∧
    storeLookup stIns.store "pets" = none ∧
    storeLookup stIns.store "pets:pets" = some (RVal.set ["1"]) ∧
    (db_pet_delete "pets" (some "1") stIns).1 = true ∧
    storeLookup stDel.store "pets:pets" = some (RVal.set ["1"]) :=
  ⟨rfl, rfl, rfl, rfl, rfl⟩

/-- C4 amended: insert adds the id to the membership key
`collection:collection` (the collection name doubled) and never issues a
SADD on the bare collection name — every SADD it issues has a strictly
longer key — while the delete path issues its membership SREM on exactly
the bare collection name; the two paths do not touch the same key, so a
delete cannot undo the membership entry an insert created and invariant
(1) is not maintained across delete. -/
theorem membership_key_mismatch (c : String) (doc : CJson) (st st2 : RedisState)
    (id_obj : CJson) (id2 : Option String)
    (hid : cJSON_GetObjectItem doc "id" = some id_obj)
    (hins : (db_pet_insert c doc st).1 = true)
    (hdel : (db_pet_delete c id2 st2).1 = true) :
    Cmd.sadd (c ++ ":" ++ c) (toString (valueint id_obj)) ∈
      (db_pet_insert c doc st).2.log ∧
    (∀ m, Cmd.sadd c m ∉ (db_pet_insert c doc st).2.log.drop st.log.length) ∧
    (∃ m, Cmd.srem c m ∈ (db_pet_delete c id2 st2).2.log) := by
  cases hst : cJSON_GetObjectItem doc "status" with
  | none =>
    exfalso
    simp only [db_pet_insert, hid, hst] at hins
    exact Bool.noConfusion hins
  | some status_obj =>
    obtain ⟨ds1, hlog, hP1⟩ := db_pet_insert_log_success c doc st id_obj status_obj
      hid hst hins
    refine ⟨?_, ?_, ?_⟩
    · rw [hlog]
      simp
    · intro m hm
      rw [hlog, List.append_assoc, List.drop_left] at hm
      rcases List.mem_append.mp hm with h | h
      · rcases List.mem_cons.mp h with h | h
        · injection h with hk hm2
          have hlen := congrArg String.length hk
          rw [String.length_append, String.length_append,
            show (":status:" : String).length = 8 from rfl] at hlen
          omega
        · obtain ⟨name, hn⟩ := hP1 _ h
          injection hn with hk hm2
          have hlen := congrArg String.length hk
          rw [String.length_append, String.length_append,
            show (":tags:" : String).length = 6 from rfl] at hlen
          omega
      · rcases List.mem_cons.mp h with h | h
        · injection h with hk hm2
          have hlen := congrArg String.length hk
          rw [String.length_append, String.length_append,
            show (":" : String).length = 1 from rfl] at hlen
          omega
        · rcases List.mem_singleton.mp h with h
          exact Cmd.noConfusion h
    · rcases hf : db_find_one c id2 st2 with ⟨o, st1⟩
      cases o with
      | none =>
        exfalso
        simp only [db_pet_delete, hf] at hdel
        exact Bool.noConfusion hdel
      | some doc2 =>
        cases h2 : cJSON_GetObjectItem doc2 "id" with
        | none =>
          exfalso
          simp only [db_pet_delete, hf, h2] at hdel
          exact Bool.noConfusion hdel
        | some id_obj2 =>
          have hb1 := remove_document_from_field_fst c
            (cJSON_GetObjectItem doc2 "status") (valueint id_obj2) 0 st1
          rcases hr1 : remove_document_from_field c
            (cJSON_GetObjectItem doc2 "status") (valueint id_obj2) 0 st1
            with ⟨b1, opn1, st3⟩
          rw [hr1] at hb1
          replace hb1 : b1 = true := hb1
          subst hb1
          rcases hr2 : remove_document_from_tags c doc2 (valueint id_obj2) opn1 st3
            with ⟨b2, opn2, st4⟩
          cases b2 with
          | false =>
            exfalso
            simp only [db_pet_delete, hf, h2, hr1, hr2] at hdel
            exact Bool.noConfusion hdel
          | true =>
            refine ⟨toString (valueint id_obj2), ?_⟩
            simp only [db_pet_delete, hf, h2, hr1, hr2,
              remove_document_from_collection]
            rw [processRedisReplies_log, log_append]
            simp

/-- C4 witness: the amended statement at the concrete scenario — insert
of `pet1` into "pets" from the empty state, delete of id "1" from the
post-insert state. -/
theorem membership_key_mismatch_witness :
    Cmd.sadd ("pets" ++ ":" ++ "pets") (toString (valueint (CJson.num 1))) ∈
      (db_pet_insert "pets" pet1 st0).2.log ∧
    (∀ m, Cmd.sadd "pets" m ∉
      (db_pet_insert "pets" pet1 st0).2.log.drop st0.log.length) ∧
    (∃ m, Cmd.srem "pets" m ∈ (db_pet_delete "pets" (some "1") stIns).2.log) :=
  membership_key_mismatch "pets" pet1 st0 stIns (CJson.num 1) (some "1")
    rfl rfl rfl

/-- C9: with `id` present but `username` absent, db_user_insert returns
failure only after having already issued the primary-slot SET and the
membership SADD — the final state is exactly the input state with those
two commands executed (store possibly mutated) and their two replies
left undrained, desynchronizing the reply stream.  db_pet_insert, by
contrast, checks both of its required fields before issuing anything: a
missing `status` leaves the state untouched. -/
theorem db_user_insert_issues_commands_before_username_check
    (c : String) (doc doc2 : CJson) (st st2 : RedisState) (id_obj id_obj2 : CJson)
    (hid : cJSON_GetObjectItem doc "id" = some id_obj)
    (huser : cJSON_GetObjectItem doc "username" = none)
    (hid2 : cJSON_GetObjectItem doc2 "id" = some id_obj2)
    (hst2 : cJSON_GetObjectItem doc2 "status" = none) :
    db_user_insert c doc st = (false,
      redisAppendCommand
        (redisAppendCommand st
          (Cmd.setk (c ++ ":" ++ toString (valueint id_obj)) (cJSON_PrintUnformatted doc)))
        (Cmd.sadd (c ++ ":" ++ c) (toString (valueint id_obj)))) ∧
    (db_user_insert c doc st).2.pending.length = st.pending.length + 2 ∧
    db_pet_insert c doc2 st2 = (false, st2) := by
  have h1 : db_user_insert c doc st = (false,
      redisAppendCommand
        (redisAppendCommand st
          (Cmd.setk (c ++ ":" ++ toString (valueint id_obj)) (cJSON_PrintUnformatted doc)))
        (Cmd.sadd (c ++ ":" ++ c) (toString (valueint id_obj)))) := by
    simp [db_user_insert, hid, huser]
  refine ⟨h1, ?_, ?_⟩
  · rw [h1]
    simp [pending_append]
  · simp [db_pet_insert, hid2, hst2]

/-- C9 witness: the user document `{id:7}` against the empty state, and
the pet document `{id:1}` (no status). -/
theorem db_user_insert_issues_commands_before_username_check_witness :
    db_user_insert "users" user_nousername st0 = (false,
      redisAppendCommand
        (redisAppendCommand st0
          (Cmd.setk ("users" ++ ":" ++ toString (valueint (CJson.num 7)))
            (cJSON_PrintUnformatted user_nousername)))
        (Cmd.sadd ("users" ++ ":" ++ "users") (toString (valueint (CJson.num 7))))) ∧
    (db_user_insert "users" user_nousername st0).2.pending.length =
      st0.pending.length + 2 ∧
    db_pet_insert "pets" pet_nostatus st0 = (false, st0) :=
  db_user_insert_issues_commands_before_username_check "users" user_nousername
    pet_nostatus st0 st0 (CJson.num 7) (CJson.num 1) rfl rfl rfl rfl

/-! ### Running the query engine -/

theorem execCmd_smembers_store (S : List (String × RVal)) (k : String) :
    (execCmd S (Cmd.smembers k)).2 = S := by
  cases h : storeLookup S k with
  | none => simp [execCmd, h]
  | some v => cases v <;> simp [execCmd, h]

theorem execCmd_get_store (S : List (String × RVal)) (k : String) :
    (execCmd S (Cmd.get k)).2 = S := by
  cases h : storeLookup S k with
  | none => simp [execCmd, h]
  | some v => cases v <;> simp [execCmd, h]

theorem replyElems_smReply (S : List (String × RVal)) (k : String) :
    replyElems (smReply S k) = smembersOf S k := by
  cases h : storeLookup S k with
  | none => simp [smReply, execCmd, h, smembersOf, replyElems]
  | some v => cases v <;> simp [smReply, execCmd, h, smembersOf, replyElems]

theorem issue_smembers_run (f : String) (values : List CJson) :
    ∀ st : RedisState, issue_smembers f values st =
      { store := st.store,
        pending := st.pending ++
          values.map (fun v => smReply st.store (f ++ ":" ++ cstr (valuestring v))),
        log := st.log ++
          values.map (fun v => Cmd.smembers (f ++ ":" ++ cstr (valuestring v))) } := by
  induction values with
  | nil => intro st; simp [issue_smembers]
  | cons v rest ih =>
    intro st
    rw [issue_smembers, ih]
    simp [redisAppendCommand, execCmd_smembers_store, smReply]

theorem issue_gets_run (c : String) (ids : List String) :
    ∀ st : RedisState, issue_gets c ids st =
      { store := st.store,
        pending := st.pending ++
          ids.map (fun id => getReplyOf st.store (c ++ ":" ++ id)),
        log := st.log ++ ids.map (fun id => Cmd.get (c ++ ":" ++ id)) } := by
  induction ids with
  | nil => intro st; simp [issue_gets]
  | cons id rest ih =>
    intro st
    rw [issue_gets, ih]
    simp [redisAppendCommand, execCmd_get_store, getReplyOf]

theorem drain_smembers_run (c : String) (S : List (String × RVal)) :
    ∀ (L : List Reply) (G : List String) (st : RedisState),
      st.store = S →
      st.pending = L ++ G.map (fun id => getReplyOf S (c ++ ":" ++ id)) →
      (drain_smembers c L.length st).1 = some (L.map replyElems).flatten.length ∧
      (drain_smembers c L.length st).2.store = S ∧
      (drain_smembers c L.length st).2.pending =
        (G ++ (L.map replyElems).flatten).map
          (fun id => getReplyOf S (c ++ ":" ++ id)) ∧
      (drain_smembers c L.length st).2.log = st.log ++
        (L.map replyElems).flatten.map (fun id => Cmd.get (c ++ ":" ++ id)) := by
  intro L
  induction L with
  | nil =>
    intro G st hS hp
    refine ⟨rfl, ?_, ?_, ?_⟩ <;> simp [drain_smembers, hS, hp]
  | cons r L ih =>
    intro G st hS hp
    have hp' : st.pending = r ::
        (L ++ G.map (fun id => getReplyOf S (c ++ ":" ++ id))) := by simpa using hp
    have hpop : redisGetReply st = (some r,
        { st with pending := L ++ G.map (fun id => getReplyOf S (c ++ ":" ++ id)) }) := by
      simp [redisGetReply, hp']
    have hig := issue_gets_run c (replyElems r)
      { st with pending := L ++ G.map (fun id => getReplyOf S (c ++ ":" ++ id)) }
    obtain ⟨h1, h2, h3, h4⟩ := ih (G ++ replyElems r)
      (issue_gets c (replyElems r)
        { st with pending := L ++ G.map (fun id => getReplyOf S (c ++ ":" ++ id)) })
      (by rw [hig]; exact hS)
      (by rw [hig]; simp [hS, List.map_append, List.append_assoc])
    rcases hr : drain_smembers c L.length
        (issue_gets c (replyElems r)
          { st with pending := L ++ G.map (fun id => getReplyOf S (c ++ ":" ++ id)) })
      with ⟨o2, st3⟩
    rw [hr] at h1 h2 h3 h4
    replace h1 : o2 = some (L.map replyElems).flatten.length := h1
    replace h2 : st3.store = S := h2
    replace h3 : st3.pending = ((G ++ replyElems r) ++ (L.map replyElems).flatten).map
      (fun id => getReplyOf S (c ++ ":" ++ id)) := h3
    replace h4 : st3.log = (issue_gets c (replyElems r)
      { st with pending := L ++ G.map (fun id => getReplyOf S (c ++ ":" ++ id)) }).log ++
      (L.map replyElems).flatten.map (fun id => Cmd.get (c ++ ":" ++ id)) := h4
    subst h1
    refine ⟨?_, ?_, ?_, ?_⟩
    · simp only [List.length_cons, drain_smembers, hpop, hr]
      simp
    · simp only [List.length_cons, drain_smembers, hpop, hr]
      exact h2
    · simp only [List.length_cons, drain_smembers, hpop, hr]
      rw [h3]
      simp [List.append_assoc]
    · simp only [List.length_cons, drain_smembers, hpop, hr]
      rw [h4, hig]
      simp [List.map_append, List.append_assoc]

theorem drain_gets_run (c : String) (S : List (String × RVal)) :
    ∀ (IDS : List String) (st : RedisState),
      st.pending = IDS.map (fun id => getReplyOf S (c ++ ":" ++ id)) →
      (drain_gets IDS.length st).1 = some (IDS.filterMap (docOf S c)) := by
  intro IDS
  induction IDS with
  | nil => intro st hp; simp [drain_gets]
  | cons id rest ih =>
    intro st hp
    have hp' : st.pending = getReplyOf S (c ++ ":" ++ id) ::
        rest.map (fun i => getReplyOf S (c ++ ":" ++ i)) := by simpa using hp
    have hpop : redisGetReply st = (some (getReplyOf S (c ++ ":" ++ id)),
        { st with pending := rest.map (fun i => getReplyOf S (c ++ ":" ++ i)) }) := by
      simp [redisGetReply, hp']
    have hih := ih { st with pending := rest.map (fun i => getReplyOf S (c ++ ":" ++ i)) } rfl
    cases hl : storeLookup S (c ++ ":" ++ id) with
    | none =>
      have hrep : getReplyOf S (c ++ ":" ++ id) = Reply.nil := by
        simp [getReplyOf, execCmd, hl]
      rw [hrep] at hpop
      simp only [List.length_cons, drain_gets, hpop]
      rw [hih]
      simp [docOf, hl, List.filterMap_cons]
    | some v =>
      cases v with
      | str s =>
        have hrep : getReplyOf S (c ++ ":" ++ id) = Reply.str s := by
          simp [getReplyOf, execCmd, hl]
        rw [hrep] at hpop
        rcases hr : drain_gets rest.length
            { st with pending := rest.map (fun i => getReplyOf S (c ++ ":" ++ i)) }
          with ⟨o2, st2⟩
        rw [hr] at hih
        replace hih : o2 = some (rest.filterMap (docOf S c)) := hih
        subst hih
        simp only [List.length_cons, drain_gets, hpop, hr]
        cases hps : cJSON_Parse s <;>
          simp [docOf, hl, hps, List.filterMap_cons]
      | set l =>
        have hrep : getReplyOf S (c ++ ":" ++ id) = Reply.err "WRONGTYPE" := by
          simp [getReplyOf, execCmd, hl]
        rw [hrep] at hpop
        simp only [List.length_cons, drain_gets, hpop]
        rw [hih]
        simp [docOf, hl, List.filterMap_cons]

theorem mkQuery_operator (op : CJson) (f : String) (vs : List String) :
    cJSON_GetObjectItem (mkQuery op f vs) "operator" = some op := rfl

theorem mkQuery_field (op : CJson) (f : String) (vs : List String) :
    cJSON_GetObjectItem (mkQuery op f vs) "field" = some (CJson.str f) := rfl

theorem mkQuery_value (op : CJson) (f : String) (vs : List String) :
    cJSON_GetObjectItem (mkQuery op f vs) "value" =
      some (CJson.arr (vs.map CJson.str)) := rfl

/-- Running db_find on a well-formed array query against a quiescent
connection yields exactly the spec-side union semantics. -/
theorem db_find_run (c f : String) (op : CJson) (vs : List String)
    (st : RedisState) (hp : st.pending = []) :
    (db_find c (mkQuery op f vs) st).1 =
      some (CJson.arr (find_spec c f vs st.store)) := by
  simp only [db_find, mkQuery_operator, mkQuery_field, mkQuery_value]
  have his := issue_smembers_run (cstr (valuestring (CJson.str f)))
    (vs.map CJson.str) st
  have hL : (vs.map CJson.str).map
      (fun v => smReply st.store
        (cstr (valuestring (CJson.str f)) ++ ":" ++ cstr (valuestring v))) =
      vs.map (fun v => smReply st.store (f ++ ":" ++ v)) := by
    simp [List.map_map, cstr, valuestring]
  have hds := drain_smembers_run c st.store
    (vs.map (fun v => smReply st.store (f ++ ":" ++ v))) []
    (issue_smembers (cstr (valuestring (CJson.str f))) (vs.map CJson.str) st)
    (by rw [his])
    (by rw [his, hp, hL]; simp)
  have hlen : (vs.map CJson.str).length =
      (vs.map (fun v => smReply st.store (f ++ ":" ++ v))).length := by
    simp
  rw [hlen]
  obtain ⟨h1, h2, h3, h4⟩ := hds
  rcases hr : drain_smembers c
      (vs.map (fun v => smReply st.store (f ++ ":" ++ v))).length
      (issue_smembers (cstr (valuestring (CJson.str f))) (vs.map CJson.str) st)
    with ⟨o2, st2⟩
  rw [hr] at h1 h2 h3
  replace h1 : o2 = some ((vs.map (fun v => smReply st.store (f ++ ":" ++ v))).map
    replyElems).flatten.length := h1
  replace h2 : st2.store = st.store := h2
  replace h3 : st2.pending = ([] ++ ((vs.map (fun v => smReply st.store (f ++ ":" ++ v))).map
      replyElems).flatten).map (fun id => getReplyOf st.store (c ++ ":" ++ id)) := h3
  subst h1
  have hIDS : ((vs.map (fun v => smReply st.store (f ++ ":" ++ v))).map
      replyElems).flatten =
      (vs.map (fun v => smembersOf st.store (f ++ ":" ++ v))).flatten := by
    simp only [List.map_map]
    have hfun : (replyElems ∘ fun v => smReply st.store (f ++ ":" ++ v)) =
        (fun v => smembersOf st.store (f ++ ":" ++ v)) := by
      funext v
      simp [Function.comp, replyElems_smReply]
    rw [hfun]
  have hdg := drain_gets_run c st.store
    ((vs.map (fun v => smReply st.store (f ++ ":" ++ v))).map replyElems).flatten
    st2 (by rw [h3]; simp)
  rcases hg : drain_gets
      ((vs.map (fun v => smReply st.store (f ++ ":" ++ v))).map replyElems).flatten.length
      st2 with ⟨o3, st3⟩
  rw [hg] at hdg
  replace hdg : o3 = some ((((vs.map (fun v => smReply st.store (f ++ ":" ++ v))).map
    replyElems).flatten).filterMap (docOf st.store c)) := hdg
  subst hdg
  simp only [hg]
  rw [hIDS]
  congr 1
  congr 1
  rw [List.filterMap_flatten]
  unfold find_spec
  simp only [List.map_map]
  have hfun2 : (List.filterMap (docOf st.store c) ∘
      fun v => smembersOf st.store (f ++ ":" ++ v)) =
      (fun v => (smembersOf st.store (f ++ ":" ++ v)).filterMap
        (docOf st.store c)) := by
    funext v
    simp [Function.comp]
  rw [hfun2]

/-- C7 amended: db_find fails with an invalid-query error when
`operator`, `field` or `value` is missing — but also when `value` is
present and not an array: only an array value is accepted; with all
three present and value an array of strings (on a quiescent connection)
the query proceeds to the index lookups and succeeds. -/
theorem db_find_value_validation (c : String) (q : CJson) (st st2 : RedisState)
    (op : CJson) (f : String) (vs : List String)
    (hbad : cJSON_GetObjectItem q "operator" = none ∨
      cJSON_GetObjectItem q "field" = none ∨
      cJSON_GetObjectItem q "value" = none ∨
      (∃ v, cJSON_GetObjectItem q "value" = some v ∧ cJSON_IsArray v = false))
    (hp : st2.pending = []) :
    (db_find c q st).1 = none ∧
    (db_find c (mkQuery op f vs) st2).1 ≠ none := by
  constructor
  · rcases hbad with h | h | h | ⟨v, hv, hna⟩
    · simp [db_find, h]
    · cases ho : cJSON_GetObjectItem q "operator" with
      | none => simp [db_find, ho]
      | some o => simp [db_find, ho, h]
    · cases ho : cJSON_GetObjectItem q "operator" with
      | none => simp [db_find, ho]
      | some o =>
        cases hf2 : cJSON_GetObjectItem q "field" with
        | none => simp [db_find, ho, hf2]
        | some fo => simp [db_find, ho, hf2, h]
    · cases ho : cJSON_GetObjectItem q "operator" with
      | none => simp [db_find, ho]
      | some o =>
        cases hf2 : cJSON_GetObjectItem q "field" with
        | none => simp [db_find, ho, hf2]
        | some fo =>
          cases v with
          | arr l => exact absurd hna (by simp [cJSON_IsArray])
          | num n => simp [db_find, ho, hf2, hv]
          | str s => simp [db_find, ho, hf2, hv]
          | obj fs => simp [db_find, ho, hf2, hv]
  · rw [db_find_run c f op vs st2 hp]
    simp

/-- C7 witness: the empty query object is rejected; the well-formed
array query for status "available" succeeds on the post-insert state. -/
theorem db_find_value_validation_witness :
    (db_find "pets" (CJson.obj []) st0).1 = none ∧
    (db_find "pets" (mkQuery (CJson.str "eq") "pets:status" ["available"])
      stIns).1 ≠ none :=
  db_find_value_validation "pets" (CJson.obj []) st0 stIns (CJson.str "eq")
    "pets:status" ["available"] (Or.inl rfl) rfl

/-- C8: for an array value, db_find returns exactly the spec-side union
semantics `find_spec` — the concatenation, in value order, of the
per-value matches, with no de-duplication, skipping ids whose primary
slot is missing or unparsable, materialized as a (possibly empty, never
null) array. -/
theorem db_find_union_semantics (c f : String) (op : CJson) (vs : List String)
    (st : RedisState) (hp : st.pending = []) :
    (db_find c (mkQuery op f vs) st).1 =
      some (CJson.arr (find_spec c f vs st.store)) :=
  db_find_run c f op vs st hp

/-- C8 witness: on a store where id "1" is indexed under both requested
status values, the query returns the document twice — once per matching
value. -/
theorem db_find_union_semantics_witness :
    (db_find "pets" (mkQuery (CJson.str "eq") "pets:status"
      ["available", "cute"]) stDup).1 =
      some (CJson.arr (find_spec "pets" "pets:status" ["available", "cute"]
        stDup.store)) ∧
    find_spec "pets" "pets:status" ["available", "cute"] stDup.store =
      [pet1, pet1] :=
  ⟨db_find_union_semantics "pets" "pets:status" (CJson.str "eq")
    ["available", "cute"] stDup rfl, rfl⟩

/-! ### Update reads the id through valuestring (claim C10) -/

theorem db_pet_insert_log_extends (c : String) (doc : CJson) (st : RedisState) :
    ∃ ds, (db_pet_insert c doc st).2.log = st.log ++ ds := by
  cases hid : cJSON_GetObjectItem doc "id" with
  | none => exact ⟨[], by simp [db_pet_insert, hid]⟩
  | some id_obj =>
    cases hst : cJSON_GetObjectItem doc "status" with
    | none => exact ⟨[], by simp [db_pet_insert, hid, hst]⟩
    | some status_obj =>
      obtain ⟨ds1, hlog, _⟩ := store_tags_log c (cJSON_GetObjectItem doc "tags")
        (valueint id_obj) 1
        (redisAppendCommand st
          (Cmd.sadd (c ++ ":status:" ++ cstr (valuestring status_obj))
            (toString (valueint id_obj))))
      rcases hr : store_tags c (cJSON_GetObjectItem doc "tags") (valueint id_obj) 1
          (redisAppendCommand st
            (Cmd.sadd (c ++ ":status:" ++ cstr (valuestring status_obj))
              (toString (valueint id_obj)))) with ⟨b, opn, st2⟩
      rw [hr] at hlog
      replace hlog : st2.log = (redisAppendCommand st
          (Cmd.sadd (c ++ ":status:" ++ cstr (valuestring status_obj))
            (toString (valueint id_obj)))).log ++ ds1 := hlog
      rw [log_append] at hlog
      cases b with
      | false =>
        refine ⟨Cmd.sadd (c ++ ":status:" ++ cstr (valuestring status_obj))
          (toString (valueint id_obj)) :: ds1, ?_⟩
        simp only [db_pet_insert, hid, hst, hr]
        rw [hlog]
        simp
      | true =>
        refine ⟨Cmd.sadd (c ++ ":status:" ++ cstr (valuestring status_obj))
            (toString (valueint id_obj)) :: ds1 ++
          [Cmd.sadd (c ++ ":" ++ c) (toString (valueint id_obj)),
           Cmd.setk (c ++ ":" ++ toString (valueint id_obj))
             (cJSON_PrintUnformatted doc)], ?_⟩
        simp only [db_pet_insert, hid, hst, hr, store_document]
        rw [processRedisReplies_log, log_append, log_append, hlog]
        simp

theorem db_user_insert_log_extends (c : String) (doc : CJson) (st : RedisState) :
    ∃ ds, (db_user_insert c doc st).2.log = st.log ++ ds := by
  cases hid : cJSON_GetObjectItem doc "id" with
  | none => exact ⟨[], by simp [db_user_insert, hid]⟩
  | some id_obj =>
    cases hu : cJSON_GetObjectItem doc "username" with
    | none =>
      refine ⟨[Cmd.setk (c ++ ":" ++ toString (valueint id_obj))
          (cJSON_PrintUnformatted doc),
        Cmd.sadd (c ++ ":" ++ c) (toString (valueint id_obj))], ?_⟩
      simp only [db_user_insert, hid, hu]
      rw [log_append, log_append]
      simp
    | some username_obj =>
      refine ⟨[Cmd.setk (c ++ ":" ++ toString (valueint id_obj))
          (cJSON_PrintUnformatted doc),
        Cmd.sadd (c ++ ":" ++ c) (toString (valueint id_obj)),
        Cmd.sadd (c ++ ":username:" ++ cstr (valuestring username_obj))
          (toString (valueint id_obj))], ?_⟩
      simp only [db_user_insert, hid, hu]
      rw [processRedisReplies_log, log_append, log_append, log_append]
      simp

/-- Every character produced by Nat.digitChar on a value below 10 is a
decimal digit. -/
theorem digitChar_isDigit (k : Nat) (hk : k < 10) :
    (Nat.digitChar k).isDigit = true := by
  interval_cases k <;> rfl

theorem toDigitsCore_digits (fuel : Nat) :
    ∀ (n : Nat) (ds : List Char), (∀ ch ∈ ds, ch.isDigit = true) →
      ∀ ch ∈ Nat.toDigitsCore 10 fuel n ds, ch.isDigit = true := by
  induction fuel with
  | zero =>
    intro n ds h ch hch
    exact h ch (by simpa [Nat.toDigitsCore] using hch)
  | succ fuel ih =>
    intro n ds h ch hch
    simp only [Nat.toDigitsCore] at hch
    have hd : ∀ x ∈ Nat.digitChar (n % 10) :: ds, x.isDigit = true := by
      intro x hx
      rcases List.mem_cons.mp hx with rfl | hx
      · exact digitChar_isDigit _ (Nat.mod_lt _ (by decide))
      · exact h x hx
    by_cases h10 : n / 10 = 0
    · rw [if_pos h10] at hch
      exact hd ch hch
    · rw [if_neg h10] at hch
      exact ih (n / 10) (Nat.digitChar (n % 10) :: ds) hd ch hch

/-- Every character of the decimal representation of a natural number is
a digit. -/
theorem nat_repr_digits (n : Nat) :
    ∀ ch ∈ (Nat.repr n).data, ch.isDigit = true := by
  intro ch hch
  exact toDigitsCore_digits (n + 1) n [] (by simp) ch
    (by simpa [Nat.repr, Nat.toDigits, List.asString] using hch)

/-- The decimal representation of an integer is never the glibc NULL
rendering "(null)". -/
theorem int_repr_data_ne_null (j : Int) : (Int.repr j).data ≠ "(null)".data := by
  cases j with
  | ofNat m =>
    intro h
    have hmem : '(' ∈ (Int.repr (Int.ofNat m)).data := by
      rw [h]
      decide
    have : ('(').isDigit = true := nat_repr_digits m '(' hmem
    exact absurd this (by decide)
  | negSucc m =>
    intro h
    have h2 : ('-' :: (Nat.repr (m + 1)).data) = "(null)".data := by
      have : Int.repr (Int.negSucc m) = "-" ++ Nat.repr (m + 1) := rfl
      rw [this, String.data_append] at h
      exact h
    have h3 : '-' = '(' := by
      have : "(null)".data = '(' :: "null)".data := rfl
      rw [this] at h2
      exact (List.cons.injEq _ _ _ _).mp h2 |>.1
    exact absurd h3 (by decide)

/-- C10: for an update document whose id is a JSON number (the stored
form), both db_pet_update and db_user_update read the id through
`valuestring`, which is NULL for a number; their delete phase therefore
starts with a GET on key `collection:(null)`, and that key can never
equal a stored primary-slot key `collection:<id>` for any integer id. -/
theorem db_update_reads_id_via_valuestring (c : String) (doc doc2 : CJson)
    (st st2 : RedisState) (n m : Int)
    (hid : cJSON_GetObjectItem doc "id" = some (CJson.num n))
    (hid2 : cJSON_GetObjectItem doc2 "id" = some (CJson.num m)) :
    (∃ ds, (db_pet_update c doc st).2.log =
      st.log ++ Cmd.get (c ++ ":" ++ cstr none) :: ds) ∧
    (∃ ds, (db_user_update c doc2 st2).2.log =
      st2.log ++ Cmd.get (c ++ ":" ++ cstr none) :: ds) ∧
    (∀ j : Int, c ++ ":" ++ cstr none ≠ c ++ ":" ++ toString j) := by
  refine ⟨?_, ?_, ?_⟩
  · obtain ⟨ds1, hlog, _⟩ := db_pet_delete_log c (valuestring (CJson.num n)) st
    rcases hd : db_pet_delete c (valuestring (CJson.num n)) st with ⟨b, st1⟩
    rw [hd] at hlog
    replace hlog : st1.log =
      st.log ++ Cmd.get (c ++ ":" ++ cstr (valuestring (CJson.num n))) :: ds1 := hlog
    cases b with
    | false =>
      refine ⟨ds1, ?_⟩
      simp only [db_pet_update, hid, hd]
      exact hlog
    | true =>
      obtain ⟨ds2, hlog2⟩ := db_pet_insert_log_extends c doc st1
      refine ⟨ds1 ++ ds2, ?_⟩
      simp only [db_pet_update, hid, hd]
      rw [hlog2, hlog]
      simp [valuestring]
  · obtain ⟨ds1, hlog, _⟩ := db_user_delete_log c (valuestring (CJson.num m)) st2
    rcases hd : db_user_delete c (valuestring (CJson.num m)) st2 with ⟨b, st1⟩
    rw [hd] at hlog
    replace hlog : st1.log =
      st2.log ++ Cmd.get (c ++ ":" ++ cstr (valuestring (CJson.num m))) :: ds1 := hlog
    cases b with
    | false =>
      refine ⟨ds1, ?_⟩
      simp only [db_user_update, hid2, hd]
      exact hlog
    | true =>
      obtain ⟨ds2, hlog2⟩ := db_user_insert_log_extends c doc2 st1
      refine ⟨ds1 ++ ds2, ?_⟩
      simp only [db_user_update, hid2, hd]
      rw [hlog2, hlog]
      simp [valuestring]
  · intro j h
    have hd := congrArg String.data h
    rw [String.data_append, String.data_append, String.data_append,
      String.data_append] at hd
    have h2 : (cstr none).data = (toString j).data :=
      List.append_cancel_left hd
    exact absurd h2.symm (int_repr_data_ne_null j)

/-- C10 witness: the pet and user update documents with numeric id 1
against the post-insert state. -/
theorem db_update_reads_id_via_valuestring_witness :
    (∃ ds, (db_pet_update "pets" pet1_sold stIns).2.log =
      stIns.log ++ Cmd.get ("pets" ++ ":" ++ cstr none) :: ds) ∧
    (∃ ds, (db_user_update "pets" pet1_sold stIns).2.log =
      stIns.log ++ Cmd.get ("pets" ++ ":" ++ cstr none) :: ds) ∧
    (∀ j : Int, "pets" ++ ":" ++ cstr none ≠ "pets" ++ ":" ++ toString j) :=
  db_update_reads_id_via_valuestring "pets" pet1_sold pet1_sold stIns stIns 1 1
    rfl rfl

end PetStore
